import Mathlib

/-!
# Order handler (`handler/order.go`)

A shallow embedding of the five HTTP route handlers of the Order service and
of the two response helpers they share.  Every handler is a function from the
collaborators it is given (the JSON codec, the repository, the response
writer, the request) to a `World`: the response writer after the call, the
log lines emitted and the repository operations invoked, in order.

The collaborators that live outside `handler/order.go` are parameters:
`encoding/json` is a `Codec`, the repository is an `OrderRepository` of
result-returning operations, the connection behind the response writer is a
list of write outcomes.  The response writer itself follows the documented
contract of `net/http`: the first `WriteHeader` fixes the status line and the
headers, a later one is ignored, and a `Write` without a previous
`WriteHeader` sends status 200 first.
-/

/-- Byte strings (`[]byte`). -/
abbrev Bytes := List UInt8

/-- Modelled from the spec: Go error values as the handler can tell them
apart.  `ErrDuplicateKey` is the sentinel declared by the repository package,
which is not part of the handler file; every other error value is `other`
carrying its detail. -/
inductive GoError where
  | ErrDuplicateKey
  | other (detail : String)
  deriving DecidableEq, Repr

namespace repository

/-- Modelled from the spec: the `repository.Order` record, declared outside the
handler file.  Four text fields and a numeric total (`total: number`, for
instance 9.99), here a rational. -/
structure Order where
  OrderId : String
  Namespace : String
  PostalCode : String
  Town : String
  Total : ℚ
  deriving DecidableEq

/-- The zero value of `repository.Order`, what `var order repository.Order`
declares. -/
def Order.zero : Order := ⟨"", "", "", "", 0⟩

/-- Modelled from the spec: the `OrderRepository` capability, declared outside
the handler file.  Each operation yields the Go result tuple; `none` is the
`nil` error. -/
structure OrderRepository where
  InsertOrder : Order → Option GoError
  GetOrders : List Order × Option GoError
  GetNamespaceOrders : String → List Order × Option GoError
  DeleteOrders : Option GoError
  DeleteNamespaceOrders : String → Option GoError

end repository

namespace http

def StatusOK : Nat := 200
def StatusCreated : Nat := 201
def StatusNoContent : Nat := 204
def StatusBadRequest : Nat := 400
def StatusConflict : Nat := 409
def StatusInternalServerError : Nat := 500

/-- What the connection does with one `Write` call: take all the bytes, or
take the first `n` of them and report an error. -/
inductive WriteOutcome where
  | accept
  | fail (n : Nat) (err : GoError)
  deriving DecidableEq, Repr

/-- The state of an `http.ResponseWriter`.
`header` is the mutable header map, `status` the status code of the status
line once it is sent, `sentHeader` the headers that went out with it,
`writes` the payload of every `Write` call, `body` the bytes the connection
took, `conn` the outcomes of the coming `Write` calls (all accepted once the
list is used up). -/
structure ResponseWriter where
  header : List (String × String)
  status : Option Nat
  sentHeader : List (String × String)
  writes : List Bytes
  body : Bytes
  conn : List WriteOutcome
  deriving DecidableEq

/-- A response writer on which nothing was sent yet, as the server hands it
to a handler. -/
def ResponseWriter.fresh (header : List (String × String)) (conn : List WriteOutcome) :
    ResponseWriter :=
  ⟨header, none, [], [], [], conn⟩

/-- The call `w.Header().Set(key, value)`: replaces the entry of `key`. -/
def ResponseWriter.HeaderSet (w : ResponseWriter) (key value : String) : ResponseWriter :=
  { w with header := (key, value) :: w.header.filter (fun kv => kv.1 ≠ key) }

/-- The call `w.WriteHeader(code)`: the first call sends the status line with
the current headers, a later call changes nothing. -/
def ResponseWriter.WriteHeader (w : ResponseWriter) (code : Nat) : ResponseWriter :=
  match w.status with
  | some _ => w
  | none => { w with status := some code, sentHeader := w.header }

/-- The call `w.Write(p)`: sends status 200 first when no status line went
out, then hands `p` to the connection. -/
def ResponseWriter.Write (w : ResponseWriter) (p : Bytes) : ResponseWriter × Option GoError :=
  let w1 := w.WriteHeader StatusOK
  match w1.conn with
  | [] => ({ w1 with writes := w1.writes ++ [p], body := w1.body ++ p }, none)
  | WriteOutcome.accept :: rest =>
    ({ w1 with writes := w1.writes ++ [p], body := w1.body ++ p, conn := rest }, none)
  | WriteOutcome.fail n err :: rest =>
    ({ w1 with writes := w1.writes ++ [p], body := w1.body ++ p.take n, conn := rest }, some err)

/-- The parts of an `*http.Request` the handlers look at: the result of
reading the whole body, and the path variables the router extracted. -/
structure Request where
  Body : Bytes × Option GoError
  Vars : List (String × String)

end http

namespace handler

open http

def defaultNamespace : String := "default"

/-- The handler value: it only holds the repository. -/
structure Order where
  repository : repository.OrderRepository

def NewOrderHandler (repository : repository.OrderRepository) : Order :=
  ⟨repository⟩

structure errorResponse where
  Status : Nat
  Message : String
  deriving DecidableEq, Repr

/-- The functions of `encoding/json` the handlers call.
`Unmarshal b order` fills `order` from `b` and yields it with the error;
`MarshalOrders` is `json.Marshal` on a slice of orders, which can fail;
`MarshalErrorResponse` is the encoding of an `errorResponse`, an integer and
a string, which cannot. -/
structure Codec where
  Unmarshal : Bytes → repository.Order → repository.Order × Option GoError
  MarshalOrders : List repository.Order → Bytes × Option GoError
  MarshalErrorResponse : errorResponse → Bytes

/-- An argument of a log call. -/
inductive LogArg where
  | str (s : String)
  | err (e : GoError)
  | order (o : repository.Order)
  | sprintfOrder (format : String) (o : repository.Order)
  deriving DecidableEq

/-- A line of the operational log: `log.Error`, `log.Errorf`, `log.Debug`,
`log.Debugf` with their arguments. -/
inductive LogEntry where
  | Error (args : List LogArg)
  | Errorf (format : String) (args : List LogArg)
  | Debug (args : List LogArg)
  | Debugf (format : String) (args : List LogArg)
  deriving DecidableEq

/-- A repository operation with its arguments. -/
inductive RepoCall where
  | InsertOrder (order : repository.Order)
  | GetOrders
  | GetNamespaceOrders (ns : String)
  | DeleteOrders
  | DeleteNamespaceOrders (ns : String)
  deriving DecidableEq

/-- Everything a handler acts on: the response writer, the log, the repository
operations invoked so far, and whether the request body was closed. -/
structure World where
  w : ResponseWriter
  log : List LogEntry
  calls : List RepoCall
  bodyClosed : Bool
  deriving DecidableEq

/-- The world a handler starts in. -/
def World.start (w : ResponseWriter) : World := ⟨w, [], [], false⟩

def World.logLine (s : World) (e : LogEntry) : World :=
  { s with log := s.log ++ [e] }

def World.call (s : World) (c : RepoCall) : World :=
  { s with calls := s.calls ++ [c] }

/-- The newline `Encoder.Encode` puts after the value. -/
def newline : Bytes := [10]

/-- The call `json.NewEncoder(w).Encode(response)`: one `Write` of the encoded
value followed by a newline. -/
def Encode (j : Codec) (w : ResponseWriter) (response : errorResponse) :
    ResponseWriter × Option GoError :=
  w.Write (j.MarshalErrorResponse response ++ newline)

def contentType : String := "application/json;charset=UTF-8"

def respondWithCodeAndMessage (j : Codec) (code : Nat) (msg : String) (s : World) : World :=
  let w1 := s.w.HeaderSet "Content-Type" contentType
  let w2 := w1.WriteHeader code
  let response : errorResponse := ⟨code, msg⟩
  match Encode j w2 response with
  | (w3, some err) =>
    { s with w := w3 }.logLine (LogEntry.Error [LogArg.str "Error sending response", LogArg.err err])
  | (w3, none) => { s with w := w3 }

def respondOrders (j : Codec) (orders : List repository.Order) (s : World) :
    World × Option GoError :=
  match j.MarshalOrders orders with
  | (_, some err) => (s, some err)
  | (body, none) =>
    let w1 := s.w.HeaderSet "Content-Type" contentType
    let w2 := w1.WriteHeader StatusOK
    match w2.Write body with
    | (w3, some err) => ({ s with w := w3 }, some err)
    | (w3, none) => ({ s with w := w3 }, none)

def invalidBody : String :=
  "Invalid request body, orderId / total / postalCode / town fields cannot be empty."

def internalError : String := "Internal error."

def noNamespace : String := "No namespace provided."

/-- The result of `fmt.Sprintf("Order %s already exists.", orderId)`. -/
def alreadyExists (orderId : String) : String :=
  "Order " ++ orderId ++ " already exists."

def Order.InsertOrder (orderHandler : Order) (j : Codec) (w : ResponseWriter) (r : Request) :
    World :=
  let s := World.start w
  match r.Body with
  | (_, some err) =>
    respondWithCodeAndMessage j StatusInternalServerError internalError
      (s.logLine (LogEntry.Error [LogArg.str "Error parsing request.", LogArg.err err]))
  | (b, none) =>
    let out : World :=
      match j.Unmarshal b repository.Order.zero with
      | (order, err) =>
        if err ≠ none ∨ order.OrderId = "" ∨ order.PostalCode = "" ∨ order.Town = ""
            ∨ order.Total = 0 then
          respondWithCodeAndMessage j StatusBadRequest invalidBody s
        else
          let order : repository.Order :=
            if order.Namespace = "" then { order with Namespace := defaultNamespace } else order
          let s1 := s.logLine (LogEntry.Debugf "Inserting order: '%+v'." [LogArg.order order])
          let s2 := s1.call (RepoCall.InsertOrder order)
          match orderHandler.repository.InsertOrder order with
          | none => { s2 with w := s2.w.WriteHeader StatusCreated }
          | some GoError.ErrDuplicateKey =>
            respondWithCodeAndMessage j StatusConflict (alreadyExists order.OrderId) s2
          | some err =>
            respondWithCodeAndMessage j StatusInternalServerError internalError
              (s2.logLine (LogEntry.Error
                [LogArg.sprintfOrder "Error inserting order: '%+v'" order, LogArg.err err]))
    { out with bodyClosed := true }

def Order.GetOrders (orderHandler : Order) (j : Codec) (w : ResponseWriter) (_r : Request) :
    World :=
  let s := (World.start w).logLine (LogEntry.Debug [LogArg.str "Retrieving orders"])
  let s1 := s.call RepoCall.GetOrders
  match orderHandler.repository.GetOrders with
  | (_, some err) =>
    respondWithCodeAndMessage j StatusInternalServerError internalError
      (s1.logLine (LogEntry.Error [LogArg.str "Error retrieving orders.", LogArg.err err]))
  | (orders, none) =>
    match respondOrders j orders s1 with
    | (s2, some err) =>
      respondWithCodeAndMessage j StatusInternalServerError internalError
        (s2.logLine (LogEntry.Error [LogArg.str "Error sending orders response.", LogArg.err err]))
    | (s2, none) => s2

def Order.GetNamespaceOrders (orderHandler : Order) (j : Codec) (w : ResponseWriter)
    (r : Request) : World :=
  let s := World.start w
  match r.Vars.lookup "namespace" with
  | none => respondWithCodeAndMessage j StatusBadRequest noNamespace s
  | some ns =>
    let s0 := s.logLine (LogEntry.Debugf "Retrieving orders for namespace: %s\n" [LogArg.str ns])
    let s1 := s0.call (RepoCall.GetNamespaceOrders ns)
    match orderHandler.repository.GetNamespaceOrders ns with
    | (_, some err) =>
      respondWithCodeAndMessage j StatusInternalServerError internalError
        (s1.logLine (LogEntry.Error [LogArg.str "Error retrieving orders.", LogArg.err err]))
    | (orders, none) =>
      match respondOrders j orders s1 with
      | (s2, some err) =>
        respondWithCodeAndMessage j StatusInternalServerError internalError
          (s2.logLine
            (LogEntry.Error [LogArg.str "Error sending orders response.", LogArg.err err]))
      | (s2, none) => s2

def Order.DeleteOrders (orderHandler : Order) (j : Codec) (w : ResponseWriter) (_r : Request) :
    World :=
  let s := (World.start w).logLine (LogEntry.Debug [LogArg.str "Deleting all orders"])
  let s1 := s.call RepoCall.DeleteOrders
  match orderHandler.repository.DeleteOrders with
  | some err =>
    respondWithCodeAndMessage j StatusInternalServerError internalError
      (s1.logLine (LogEntry.Error [LogArg.str "Error deleting orders.", LogArg.err err]))
  | none => { s1 with w := s1.w.WriteHeader StatusNoContent }

def Order.DeleteNamespaceOrders (orderHandler : Order) (j : Codec) (w : ResponseWriter)
    (r : Request) : World :=
  let s := World.start w
  match r.Vars.lookup "namespace" with
  | none => respondWithCodeAndMessage j StatusBadRequest noNamespace s
  | some ns =>
    let s0 := s.logLine (LogEntry.Debugf "Deleting orders in namespace %s\n" [LogArg.str ns])
    let s1 := s0.call (RepoCall.DeleteNamespaceOrders ns)
    match orderHandler.repository.DeleteNamespaceOrders ns with
    | some err =>
      respondWithCodeAndMessage j StatusInternalServerError internalError
        (s1.logLine (LogEntry.Errorf "Deleting orders in namespace %s\n. %s"
          [LogArg.str ns, LogArg.err err]))
    | none => { s1 with w := s1.w.WriteHeader StatusNoContent }

/-! ## Specification-side definitions and example collaborators -/

/-- The order the specification says is delegated to the repository: the parsed
payload, with the namespace "default" when the payload has none. -/
def specDelegatedOrder (order : repository.Order) : repository.Order :=
  if order.Namespace = "" then { order with Namespace := "default" } else order

/-- The order of the specification's example request. -/
def sampleOrder : repository.Order := ⟨"o1", "", "12345", "Metropolis", 999 / 100⟩

/-- A codec for the examples: every body parses to `order` with error `err`,
every list of orders is encoded as `[]`, an error response as the characters
of its message. -/
def sampleCodec (order : repository.Order) (err : Option GoError) : Codec where
  Unmarshal := fun _ _ => (order, err)
  MarshalOrders := fun _ => ([91, 93], none)
  MarshalErrorResponse := fun response => response.Message.data.map (fun c => c.toNat.toUInt8)

/-- A repository for the examples: every write operation answers `err`, every
read operation answers `orders` with `err`. -/
def sampleRepository (orders : List repository.Order) (err : Option GoError) :
    repository.OrderRepository where
  InsertOrder := fun _ => err
  GetOrders := (orders, err)
  GetNamespaceOrders := fun _ => (orders, err)
  DeleteOrders := err
  DeleteNamespaceOrders := fun _ => err

/-- The five routes of the HTTP surface, one per handler. -/
inductive Route where
  | InsertOrder
  | GetOrders
  | GetNamespaceOrders
  | DeleteOrders
  | DeleteNamespaceOrders
  deriving DecidableEq, Repr

/-- The handler that serves a route. -/
def Order.serve (orderHandler : Order) (route : Route) (j : Codec) (w : ResponseWriter)
    (r : Request) : World :=
  match route with
  | Route.InsertOrder => orderHandler.InsertOrder j w r
  | Route.GetOrders => orderHandler.GetOrders j w r
  | Route.GetNamespaceOrders => orderHandler.GetNamespaceOrders j w r
  | Route.DeleteOrders => orderHandler.DeleteOrders j w r
  | Route.DeleteNamespaceOrders => orderHandler.DeleteNamespaceOrders j w r

/-- The response is the generic internal error: the status is 500, the one
Write call carries the encoding of the error response of status 500 and
message "Internal error." followed by a newline, and the body is what the
connection took of that payload. -/
def genericInternalError (j : Codec) (w : ResponseWriter) : Prop :=
  w.status = some 500
    ∧ w.writes = [j.MarshalErrorResponse ⟨500, "Internal error."⟩ ++ newline]
    ∧ w.body <+: j.MarshalErrorResponse ⟨500, "Internal error."⟩ ++ newline

/-- The status line went out with the JSON content type among its headers, and
its status code is one that comes with a body (neither 201 nor 204). -/
def sentAsJSON (w : ResponseWriter) : Prop :=
  w.sentHeader.lookup "Content-Type" = some "application/json;charset=UTF-8"
    ∧ ∃ code, w.status = some code ∧ code ≠ 201 ∧ code ≠ 204

/-- Nothing was handed to the connection: no Write call, no byte of body. -/
def nothingWritten (w : ResponseWriter) : Prop :=
  w.writes = [] ∧ w.body = []

end handler

namespace http

/-! ## The response writer -/

theorem ResponseWriter.WriteHeader_status (w : ResponseWriter) (code : Nat) :
    (w.WriteHeader code).status = some (w.status.getD code) := by
  unfold ResponseWriter.WriteHeader
  cases h : w.status <;> simp [h]

theorem ResponseWriter.WriteHeader_writes (w : ResponseWriter) (code : Nat) :
    (w.WriteHeader code).writes = w.writes := by
  unfold ResponseWriter.WriteHeader
  cases w.status <;> rfl

theorem ResponseWriter.WriteHeader_body (w : ResponseWriter) (code : Nat) :
    (w.WriteHeader code).body = w.body := by
  unfold ResponseWriter.WriteHeader
  cases w.status <;> rfl

theorem ResponseWriter.WriteHeader_conn (w : ResponseWriter) (code : Nat) :
    (w.WriteHeader code).conn = w.conn := by
  unfold ResponseWriter.WriteHeader
  cases w.status <;> rfl

theorem ResponseWriter.WriteHeader_sentHeader (w : ResponseWriter) (code : Nat) :
    (w.WriteHeader code).sentHeader = if w.status = none then w.header else w.sentHeader := by
  unfold ResponseWriter.WriteHeader
  cases h : w.status <;> simp [h]

theorem ResponseWriter.Write_status (w : ResponseWriter) (p : Bytes) :
    (w.Write p).1.status = some (w.status.getD StatusOK) := by
  have h := ResponseWriter.WriteHeader_status w StatusOK
  simp only [ResponseWriter.Write]
  split <;> exact h

theorem ResponseWriter.Write_writes (w : ResponseWriter) (p : Bytes) :
    (w.Write p).1.writes = w.writes ++ [p] := by
  have h := ResponseWriter.WriteHeader_writes w StatusOK
  simp only [ResponseWriter.Write]
  split <;> simp [h]

theorem ResponseWriter.Write_sentHeader (w : ResponseWriter) (p : Bytes) :
    (w.Write p).1.sentHeader = if w.status = none then w.header else w.sentHeader := by
  have h := ResponseWriter.WriteHeader_sentHeader w StatusOK
  simp only [ResponseWriter.Write]
  split <;> exact h

theorem ResponseWriter.Write_body_of_accepting (w : ResponseWriter) (p : Bytes)
    (h : w.conn = []) : (w.Write p).1.body = w.body ++ p ∧ (w.Write p).1.conn = []
      ∧ (w.Write p).2 = none := by
  have hc := ResponseWriter.WriteHeader_conn w StatusOK
  have hb := ResponseWriter.WriteHeader_body w StatusOK
  simp only [ResponseWriter.Write]
  split <;> simp_all

end http

namespace handler

open http

/-! ## The response helpers -/

theorem respondWithCodeAndMessage_w (j : Codec) (code : Nat) (msg : String) (s : World) :
    (respondWithCodeAndMessage j code msg s).w
      = (((s.w.HeaderSet "Content-Type" contentType).WriteHeader code).Write
          (j.MarshalErrorResponse ⟨code, msg⟩ ++ newline)).1 := by
  simp only [respondWithCodeAndMessage, Encode]
  split <;> rename_i h <;> simp [World.logLine, h]

theorem respondWithCodeAndMessage_calls (j : Codec) (code : Nat) (msg : String) (s : World) :
    (respondWithCodeAndMessage j code msg s).calls = s.calls := by
  simp only [respondWithCodeAndMessage]
  split <;> simp [World.logLine]

theorem respondWithCodeAndMessage_status (j : Codec) (code : Nat) (msg : String) (s : World) :
    (respondWithCodeAndMessage j code msg s).w.status = some (s.w.status.getD code) := by
  rw [respondWithCodeAndMessage_w, ResponseWriter.Write_status,
    ResponseWriter.WriteHeader_status]
  cases h : s.w.status <;> simp [ResponseWriter.HeaderSet, h]

theorem respondWithCodeAndMessage_writes (j : Codec) (code : Nat) (msg : String) (s : World) :
    (respondWithCodeAndMessage j code msg s).w.writes
      = s.w.writes ++ [j.MarshalErrorResponse ⟨code, msg⟩ ++ newline] := by
  rw [respondWithCodeAndMessage_w, ResponseWriter.Write_writes,
    ResponseWriter.WriteHeader_writes]
  rfl

theorem respondWithCodeAndMessage_body (j : Codec) (code : Nat) (msg : String) (s : World)
    (h : s.w.conn = []) :
    (respondWithCodeAndMessage j code msg s).w.body
      = s.w.body ++ (j.MarshalErrorResponse ⟨code, msg⟩ ++ newline) := by
  rw [respondWithCodeAndMessage_w]
  have hc : ((s.w.HeaderSet "Content-Type" contentType).WriteHeader code).conn = [] := by
    rw [ResponseWriter.WriteHeader_conn]; exact h
  rw [(ResponseWriter.Write_body_of_accepting _ _ hc).1, ResponseWriter.WriteHeader_body]
  rfl

/-! ## InsertOrder -/

/-- What `InsertOrder` does once the body was read and parsed into an order
that passes the field checks: it logs, delegates the order with its namespace
resolved, and maps the repository's answer. -/
theorem InsertOrder_of_valid (orderHandler : Order) (j : Codec) (w : ResponseWriter)
    (b : Bytes) (vars : List (String × String)) (order : repository.Order)
    (hparse : j.Unmarshal b repository.Order.zero = (order, none))
    (hid : order.OrderId ≠ "") (hpc : order.PostalCode ≠ "") (htown : order.Town ≠ "")
    (htotal : order.Total ≠ 0) :
    orderHandler.InsertOrder j w ⟨(b, none), vars⟩
      = { (match orderHandler.repository.InsertOrder (specDelegatedOrder order) with
          | none =>
            { w := w.WriteHeader StatusCreated,
              log := [LogEntry.Debugf "Inserting order: '%+v'."
                [LogArg.order (specDelegatedOrder order)]],
              calls := [RepoCall.InsertOrder (specDelegatedOrder order)],
              bodyClosed := false }
          | some GoError.ErrDuplicateKey =>
            respondWithCodeAndMessage j StatusConflict
              (alreadyExists (specDelegatedOrder order).OrderId)
              ⟨w, [LogEntry.Debugf "Inserting order: '%+v'."
                [LogArg.order (specDelegatedOrder order)]],
                [RepoCall.InsertOrder (specDelegatedOrder order)], false⟩
          | some err =>
            respondWithCodeAndMessage j StatusInternalServerError internalError
              ⟨w, [LogEntry.Debugf "Inserting order: '%+v'."
                  [LogArg.order (specDelegatedOrder order)],
                LogEntry.Error [LogArg.sprintfOrder "Error inserting order: '%+v'"
                  (specDelegatedOrder order), LogArg.err err]],
                [RepoCall.InsertOrder (specDelegatedOrder order)], false⟩ : World)
          with bodyClosed := true } := by
  simp only [Order.InsertOrder, hparse, specDelegatedOrder, defaultNamespace]
  simp only [hid, hpc, htown, htotal, ne_eq, not_true_eq_false, or_self, ↓reduceIte,
    World.start, World.logLine, World.call, List.nil_append, List.cons_append]

theorem specDelegatedOrder_OrderId (order : repository.Order) :
    (specDelegatedOrder order).OrderId = order.OrderId := by
  unfold specDelegatedOrder
  split <;> rfl

/-- C1: when the body that was read does not parse into an Order, or parses
with an empty orderId, postalCode or town or a zero total, InsertOrder answers
status 400 with the fixed message about the four fields, invokes no repository
operation, and its whole effect is the same for every repository. -/
theorem InsertOrder_invalid_is_400 (orderHandler : Order) (j : Codec)
    (header : List (String × String)) (conn : List WriteOutcome) (b : Bytes)
    (vars : List (String × String))
    (hinvalid : (j.Unmarshal b repository.Order.zero).2 ≠ none
      ∨ (j.Unmarshal b repository.Order.zero).1.OrderId = ""
      ∨ (j.Unmarshal b repository.Order.zero).1.PostalCode = ""
      ∨ (j.Unmarshal b repository.Order.zero).1.Town = ""
      ∨ (j.Unmarshal b repository.Order.zero).1.Total = 0) :
    (orderHandler.InsertOrder j (ResponseWriter.fresh header conn) ⟨(b, none), vars⟩).w.status
        = some 400
      ∧ (orderHandler.InsertOrder j (ResponseWriter.fresh header conn) ⟨(b, none), vars⟩).w.writes
        = [j.MarshalErrorResponse ⟨400,
            "Invalid request body, orderId / total / postalCode / town fields cannot be empty."⟩
            ++ newline]
      ∧ (orderHandler.InsertOrder j (ResponseWriter.fresh header []) ⟨(b, none), vars⟩).w.body
        = j.MarshalErrorResponse ⟨400,
            "Invalid request body, orderId / total / postalCode / town fields cannot be empty."⟩
            ++ newline
      ∧ (orderHandler.InsertOrder j (ResponseWriter.fresh header conn) ⟨(b, none), vars⟩).calls
        = []
      ∧ ∀ other : Order,
          other.InsertOrder j (ResponseWriter.fresh header conn) ⟨(b, none), vars⟩
            = orderHandler.InsertOrder j (ResponseWriter.fresh header conn) ⟨(b, none), vars⟩ := by
  have key : ∀ (h : Order) (c : List WriteOutcome),
      h.InsertOrder j (ResponseWriter.fresh header c) ⟨(b, none), vars⟩
        = { respondWithCodeAndMessage j StatusBadRequest invalidBody
              (World.start (ResponseWriter.fresh header c)) with bodyClosed := true } := by
    intro h c
    simp only [Order.InsertOrder]
    rw [if_pos hinvalid]
  refine ⟨?_, ?_, ?_, ?_, ?_⟩
  · rw [key]
    exact respondWithCodeAndMessage_status j _ _ _
  · rw [key]
    exact respondWithCodeAndMessage_writes j _ _ _
  · rw [key]
    exact respondWithCodeAndMessage_body j _ _ _ rfl
  · rw [key]
    exact respondWithCodeAndMessage_calls j _ _ _
  · intro other
    rw [key, key]

theorem InsertOrder_invalid_is_400_witness :
    ((sampleCodec { sampleOrder with Total := 0 } none).Unmarshal [] repository.Order.zero).1.Total
        = 0
      ∧ ((NewOrderHandler (sampleRepository [] none)).InsertOrder
          (sampleCodec { sampleOrder with Total := 0 } none)
          (ResponseWriter.fresh [] []) ⟨([], none), []⟩).w.status = some 400
      ∧ ((NewOrderHandler (sampleRepository [] none)).InsertOrder
          (sampleCodec { sampleOrder with Total := 0 } none)
          (ResponseWriter.fresh [] []) ⟨([], none), []⟩).calls = [] :=
  ⟨rfl,
    (InsertOrder_invalid_is_400 (NewOrderHandler (sampleRepository [] none))
      (sampleCodec { sampleOrder with Total := 0 } none) [] [] [] []
      (Or.inr (Or.inr (Or.inr (Or.inr rfl))))).1,
    (InsertOrder_invalid_is_400 (NewOrderHandler (sampleRepository [] none))
      (sampleCodec { sampleOrder with Total := 0 } none) [] [] [] []
      (Or.inr (Or.inr (Or.inr (Or.inr rfl))))).2.2.2.1⟩

/-- A body that cannot be read is answered with status 500 before any parsing,
and no repository operation is invoked. -/
theorem InsertOrder_unread_body_is_500 (orderHandler : Order) (j : Codec)
    (header : List (String × String)) (conn : List WriteOutcome) (b : Bytes) (err : GoError)
    (vars : List (String × String)) :
    (orderHandler.InsertOrder j (ResponseWriter.fresh header conn) ⟨(b, some err), vars⟩).w.status
        = some 500
      ∧ (orderHandler.InsertOrder j (ResponseWriter.fresh header conn)
          ⟨(b, some err), vars⟩).calls = [] := by
  simp only [Order.InsertOrder]
  exact ⟨respondWithCodeAndMessage_status j _ _ _, respondWithCodeAndMessage_calls j _ _ _⟩

/-- C2: when the body is read and parses into an order with non-empty orderId,
postalCode and town and a non-zero total, and the repository's InsertOrder
reports success for the delegated order, InsertOrder answers status 201 and
makes no Write call, so the body stays empty. -/
theorem InsertOrder_success_is_201 (orderHandler : Order) (j : Codec)
    (header : List (String × String)) (conn : List WriteOutcome) (b : Bytes)
    (vars : List (String × String)) (order : repository.Order)
    (hparse : j.Unmarshal b repository.Order.zero = (order, none))
    (hid : order.OrderId ≠ "") (hpc : order.PostalCode ≠ "") (htown : order.Town ≠ "")
    (htotal : order.Total ≠ 0)
    (hrepo : orderHandler.repository.InsertOrder (specDelegatedOrder order) = none) :
    (orderHandler.InsertOrder j (ResponseWriter.fresh header conn) ⟨(b, none), vars⟩).w.status
        = some 201
      ∧ (orderHandler.InsertOrder j (ResponseWriter.fresh header conn) ⟨(b, none), vars⟩).w.writes
        = []
      ∧ (orderHandler.InsertOrder j (ResponseWriter.fresh header conn) ⟨(b, none), vars⟩).w.body
        = [] := by
  rw [InsertOrder_of_valid orderHandler j _ b vars order hparse hid hpc htown htotal, hrepo]
  exact ⟨rfl, rfl, rfl⟩

theorem InsertOrder_success_is_201_witness :
    ((NewOrderHandler (sampleRepository [] none)).InsertOrder (sampleCodec sampleOrder none)
        (ResponseWriter.fresh [] []) ⟨([], none), []⟩).w.status = some 201
      ∧ ((NewOrderHandler (sampleRepository [] none)).InsertOrder (sampleCodec sampleOrder none)
        (ResponseWriter.fresh [] []) ⟨([], none), []⟩).w.writes = []
      ∧ ((NewOrderHandler (sampleRepository [] none)).InsertOrder (sampleCodec sampleOrder none)
        (ResponseWriter.fresh [] []) ⟨([], none), []⟩).w.body = [] :=
  InsertOrder_success_is_201 (NewOrderHandler (sampleRepository [] none))
    (sampleCodec sampleOrder none) [] [] [] [] sampleOrder rfl (by decide) (by decide)
    (by decide) (by simp [sampleOrder]) rfl

/-- C3: for a valid order payload, when the repository's InsertOrder returns
ErrDuplicateKey, InsertOrder answers status 409 and its error body carries the
message "Order <orderId> already exists." built from the submitted order's
orderId, which therefore occurs in the message. -/
theorem InsertOrder_duplicate_is_409 (orderHandler : Order) (j : Codec)
    (header : List (String × String)) (conn : List WriteOutcome) (b : Bytes)
    (vars : List (String × String)) (order : repository.Order)
    (hparse : j.Unmarshal b repository.Order.zero = (order, none))
    (hid : order.OrderId ≠ "") (hpc : order.PostalCode ≠ "") (htown : order.Town ≠ "")
    (htotal : order.Total ≠ 0)
    (hrepo : orderHandler.repository.InsertOrder (specDelegatedOrder order)
      = some GoError.ErrDuplicateKey) :
    (orderHandler.InsertOrder j (ResponseWriter.fresh header conn) ⟨(b, none), vars⟩).w.status
        = some 409
      ∧ (orderHandler.InsertOrder j (ResponseWriter.fresh header conn) ⟨(b, none), vars⟩).w.writes
        = [j.MarshalErrorResponse ⟨409, "Order " ++ order.OrderId ++ " already exists."⟩
            ++ newline]
      ∧ (orderHandler.InsertOrder j (ResponseWriter.fresh header []) ⟨(b, none), vars⟩).w.body
        = j.MarshalErrorResponse ⟨409, "Order " ++ order.OrderId ++ " already exists."⟩
            ++ newline
      ∧ order.OrderId.data <:+: ("Order " ++ order.OrderId ++ " already exists.").data := by
  refine ⟨?_, ?_, ?_, ?_⟩
  · rw [InsertOrder_of_valid orderHandler j _ b vars order hparse hid hpc htown htotal, hrepo]
    exact respondWithCodeAndMessage_status j _ _ _
  · rw [InsertOrder_of_valid orderHandler j _ b vars order hparse hid hpc htown htotal, hrepo]
    simp only [respondWithCodeAndMessage_writes, specDelegatedOrder_OrderId, alreadyExists]
    rfl
  · rw [InsertOrder_of_valid orderHandler j _ b vars order hparse hid hpc htown htotal, hrepo]
    simp only [specDelegatedOrder_OrderId, alreadyExists]
    exact respondWithCodeAndMessage_body j _ _ _ rfl
  · exact ⟨"Order ".data, " already exists.".data, by simp [String.data_append]⟩

theorem InsertOrder_duplicate_is_409_witness :
    ((NewOrderHandler (sampleRepository [] (some GoError.ErrDuplicateKey))).InsertOrder
        (sampleCodec sampleOrder none) (ResponseWriter.fresh [] []) ⟨([], none), []⟩).w.status
        = some 409
      ∧ ((NewOrderHandler (sampleRepository [] (some GoError.ErrDuplicateKey))).InsertOrder
        (sampleCodec sampleOrder none) (ResponseWriter.fresh [] []) ⟨([], none), []⟩).w.writes
        = [(sampleCodec sampleOrder none).MarshalErrorResponse
            ⟨409, "Order " ++ sampleOrder.OrderId ++ " already exists."⟩ ++ newline] :=
  ⟨(InsertOrder_duplicate_is_409 (NewOrderHandler (sampleRepository [] (some GoError.ErrDuplicateKey)))
      (sampleCodec sampleOrder none) [] [] [] [] sampleOrder rfl (by decide) (by decide)
      (by decide) (by simp [sampleOrder]) rfl).1,
    (InsertOrder_duplicate_is_409 (NewOrderHandler (sampleRepository [] (some GoError.ErrDuplicateKey)))
      (sampleCodec sampleOrder none) [] [] [] [] sampleOrder rfl (by decide) (by decide)
      (by decide) (by simp [sampleOrder]) rfl).2.1⟩

/-- C4: for a valid order payload, the one repository operation InsertOrder
invokes is InsertOrder on the parsed payload with the namespace "default" when
the payload's namespace is empty, and on the parsed payload unchanged when it
is not; orderId, postalCode, town and total are those of the payload. -/
theorem InsertOrder_delegates_resolved_order (orderHandler : Order) (j : Codec)
    (header : List (String × String)) (conn : List WriteOutcome) (b : Bytes)
    (vars : List (String × String)) (order : repository.Order)
    (hparse : j.Unmarshal b repository.Order.zero = (order, none))
    (hid : order.OrderId ≠ "") (hpc : order.PostalCode ≠ "") (htown : order.Town ≠ "")
    (htotal : order.Total ≠ 0) :
    (orderHandler.InsertOrder j (ResponseWriter.fresh header conn) ⟨(b, none), vars⟩).calls
        = [RepoCall.InsertOrder (specDelegatedOrder order)]
      ∧ (order.Namespace = "" → specDelegatedOrder order = { order with Namespace := "default" })
      ∧ (order.Namespace ≠ "" → specDelegatedOrder order = order)
      ∧ (specDelegatedOrder order).OrderId = order.OrderId
      ∧ (specDelegatedOrder order).PostalCode = order.PostalCode
      ∧ (specDelegatedOrder order).Town = order.Town
      ∧ (specDelegatedOrder order).Total = order.Total := by
  refine ⟨?_, ?_, ?_, ?_⟩
  · rw [InsertOrder_of_valid orderHandler j _ b vars order hparse hid hpc htown htotal]
    split <;> simp [respondWithCodeAndMessage_calls]
  · intro h
    simp [specDelegatedOrder, h]
  · intro h
    simp [specDelegatedOrder, h]
  · unfold specDelegatedOrder
    split <;> simp

theorem InsertOrder_delegates_resolved_order_witness :
    sampleOrder.Namespace = ""
      ∧ ((NewOrderHandler (sampleRepository [] none)).InsertOrder (sampleCodec sampleOrder none)
          (ResponseWriter.fresh [] []) ⟨([], none), []⟩).calls
        = [RepoCall.InsertOrder ⟨"o1", "default", "12345", "Metropolis", 999 / 100⟩] :=
  ⟨rfl,
    (InsertOrder_delegates_resolved_order (NewOrderHandler (sampleRepository [] none))
      (sampleCodec sampleOrder none) [] [] [] [] sampleOrder rfl (by decide) (by decide)
      (by decide) (by simp [sampleOrder])).1.trans (by simp [specDelegatedOrder, sampleOrder])⟩

/-! ## The namespace handlers and the delete handlers -/

/-- C5: when the path variables have no "namespace" entry, GetNamespaceOrders
and DeleteNamespaceOrders each answer status 400 with the message
"No namespace provided." and invoke no repository operation. -/
theorem namespace_missing_is_400 (orderHandler : Order) (j : Codec)
    (header : List (String × String)) (conn : List WriteOutcome) (r : Request)
    (hmissing : r.Vars.lookup "namespace" = none) :
    ((orderHandler.GetNamespaceOrders j (ResponseWriter.fresh header conn) r).w.status = some 400
      ∧ (orderHandler.GetNamespaceOrders j (ResponseWriter.fresh header conn) r).w.writes
        = [j.MarshalErrorResponse ⟨400, "No namespace provided."⟩ ++ newline]
      ∧ (orderHandler.GetNamespaceOrders j (ResponseWriter.fresh header conn) r).calls = [])
    ∧ ((orderHandler.DeleteNamespaceOrders j (ResponseWriter.fresh header conn) r).w.status
        = some 400
      ∧ (orderHandler.DeleteNamespaceOrders j (ResponseWriter.fresh header conn) r).w.writes
        = [j.MarshalErrorResponse ⟨400, "No namespace provided."⟩ ++ newline]
      ∧ (orderHandler.DeleteNamespaceOrders j (ResponseWriter.fresh header conn) r).calls
        = []) := by
  have hget : orderHandler.GetNamespaceOrders j (ResponseWriter.fresh header conn) r
      = respondWithCodeAndMessage j StatusBadRequest noNamespace
          (World.start (ResponseWriter.fresh header conn)) := by
    simp only [Order.GetNamespaceOrders, hmissing]
  have hdel : orderHandler.DeleteNamespaceOrders j (ResponseWriter.fresh header conn) r
      = respondWithCodeAndMessage j StatusBadRequest noNamespace
          (World.start (ResponseWriter.fresh header conn)) := by
    simp only [Order.DeleteNamespaceOrders, hmissing]
  rw [hget, hdel]
  exact ⟨⟨respondWithCodeAndMessage_status j _ _ _, respondWithCodeAndMessage_writes j _ _ _,
      respondWithCodeAndMessage_calls j _ _ _⟩,
    ⟨respondWithCodeAndMessage_status j _ _ _, respondWithCodeAndMessage_writes j _ _ _,
      respondWithCodeAndMessage_calls j _ _ _⟩⟩

theorem namespace_missing_is_400_witness :
    ((NewOrderHandler (sampleRepository [] none)).GetNamespaceOrders
        (sampleCodec sampleOrder none) (ResponseWriter.fresh [] [])
        ⟨([], none), [("id", "7")]⟩).w.status = some 400
      ∧ ((NewOrderHandler (sampleRepository [] none)).DeleteNamespaceOrders
        (sampleCodec sampleOrder none) (ResponseWriter.fresh [] [])
        ⟨([], none), [("id", "7")]⟩).calls = [] :=
  ⟨(namespace_missing_is_400 (NewOrderHandler (sampleRepository [] none))
      (sampleCodec sampleOrder none) [] [] ⟨([], none), [("id", "7")]⟩ (by decide)).1.1,
    (namespace_missing_is_400 (NewOrderHandler (sampleRepository [] none))
      (sampleCodec sampleOrder none) [] [] ⟨([], none), [("id", "7")]⟩ (by decide)).2.2.2⟩

/-- C6: DeleteOrders, for every request, and DeleteNamespaceOrders, for every
request that carries a namespace path variable, answer status 204 without any
Write call when the repository's delete operation succeeds, and status 500
when it returns an error. -/
theorem delete_is_204_or_500 (orderHandler : Order) (j : Codec)
    (header : List (String × String)) (conn : List WriteOutcome) (r rns : Request) (ns : String)
    (hns : rns.Vars.lookup "namespace" = some ns) :
    (orderHandler.repository.DeleteOrders = none →
        (orderHandler.DeleteOrders j (ResponseWriter.fresh header conn) r).w.status = some 204
        ∧ (orderHandler.DeleteOrders j (ResponseWriter.fresh header conn) r).w.writes = []
        ∧ (orderHandler.DeleteOrders j (ResponseWriter.fresh header conn) r).w.body = [])
    ∧ (orderHandler.repository.DeleteOrders ≠ none →
        (orderHandler.DeleteOrders j (ResponseWriter.fresh header conn) r).w.status = some 500)
    ∧ (orderHandler.repository.DeleteNamespaceOrders ns = none →
        (orderHandler.DeleteNamespaceOrders j (ResponseWriter.fresh header conn) rns).w.status
          = some 204
        ∧ (orderHandler.DeleteNamespaceOrders j (ResponseWriter.fresh header conn) rns).w.writes
          = []
        ∧ (orderHandler.DeleteNamespaceOrders j (ResponseWriter.fresh header conn) rns).w.body
          = [])
    ∧ (orderHandler.repository.DeleteNamespaceOrders ns ≠ none →
        (orderHandler.DeleteNamespaceOrders j (ResponseWriter.fresh header conn) rns).w.status
          = some 500) := by
  refine ⟨?_, ?_, ?_, ?_⟩
  · intro h
    simp only [Order.DeleteOrders, h]
    exact ⟨rfl, rfl, rfl⟩
  · intro h
    obtain ⟨err, herr⟩ := Option.ne_none_iff_exists'.mp h
    simp only [Order.DeleteOrders, herr]
    exact respondWithCodeAndMessage_status j _ _ _
  · intro h
    simp only [Order.DeleteNamespaceOrders, hns, h]
    exact ⟨rfl, rfl, rfl⟩
  · intro h
    obtain ⟨err, herr⟩ := Option.ne_none_iff_exists'.mp h
    simp only [Order.DeleteNamespaceOrders, hns, herr]
    exact respondWithCodeAndMessage_status j _ _ _

theorem delete_is_204_or_500_witness :
    ((NewOrderHandler (sampleRepository [] none)).DeleteNamespaceOrders
        (sampleCodec sampleOrder none) (ResponseWriter.fresh [] [])
        ⟨([], none), [("namespace", "shop")]⟩).w.status = some 204
      ∧ ((NewOrderHandler (sampleRepository [] (some (GoError.other "db down")))).DeleteOrders
        (sampleCodec sampleOrder none) (ResponseWriter.fresh [] [])
        ⟨([], none), []⟩).w.status = some 500 :=
  ⟨((delete_is_204_or_500 (NewOrderHandler (sampleRepository [] none))
      (sampleCodec sampleOrder none) [] [] ⟨([], none), []⟩
      ⟨([], none), [("namespace", "shop")]⟩ "shop" (by decide)).2.2.1 rfl).1,
    (delete_is_204_or_500 (NewOrderHandler (sampleRepository [] (some (GoError.other "db down"))))
      (sampleCodec sampleOrder none) [] [] ⟨([], none), []⟩
      ⟨([], none), [("namespace", "shop")]⟩ "shop" (by decide)).2.1 (by decide)⟩

/-! ## GetOrders and GetNamespaceOrders -/

theorem respondOrders_of_marshal_error (j : Codec) (orders : List repository.Order) (s : World)
    (body : Bytes) (err : GoError) (h : j.MarshalOrders orders = (body, some err)) :
    respondOrders j orders s = (s, some err) := by
  simp only [respondOrders, h]

theorem respondOrders_of_marshalled (j : Codec) (orders : List repository.Order) (s : World)
    (body : Bytes) (h : j.MarshalOrders orders = (body, none)) :
    respondOrders j orders s
      = ({ s with w := (((s.w.HeaderSet "Content-Type" contentType).WriteHeader StatusOK).Write
            body).1 },
          (((s.w.HeaderSet "Content-Type" contentType).WriteHeader StatusOK).Write body).2) := by
  simp only [respondOrders, h]
  split <;> rename_i heq <;> simp [heq]

/-- What `GetOrders` leaves in the response writer, by the answers of its
collaborators. -/
theorem GetOrders_w (orderHandler : Order) (j : Codec) (w : ResponseWriter) (r : Request) :
    (orderHandler.GetOrders j w r).w
      = match orderHandler.repository.GetOrders with
        | (_, some _) =>
          (respondWithCodeAndMessage j StatusInternalServerError internalError (World.start w)).w
        | (orders, none) =>
          match j.MarshalOrders orders with
          | (_, some _) =>
            (respondWithCodeAndMessage j StatusInternalServerError internalError
              (World.start w)).w
          | (body, none) =>
            match ((w.HeaderSet "Content-Type" contentType).WriteHeader StatusOK).Write body with
            | (w1, some _) =>
              (respondWithCodeAndMessage j StatusInternalServerError internalError
                (World.start w1)).w
            | (w1, none) => w1 := by
  simp only [Order.GetOrders]
  rcases hrepo : orderHandler.repository.GetOrders with ⟨orders, _ | err⟩
  · rcases hm : j.MarshalOrders orders with ⟨body, _ | merr⟩
    · simp only [respondOrders_of_marshalled j orders _ body hm]
      rcases hw : ((w.HeaderSet "Content-Type" contentType).WriteHeader StatusOK).Write body
        with ⟨w1, _ | werr⟩
      · simp [World.start, World.logLine, World.call, hw, hm]
      · simp [World.start, World.logLine, World.call, hw, hm, respondWithCodeAndMessage_w]
    · simp [respondOrders_of_marshal_error j orders _ body merr hm, respondWithCodeAndMessage_w,
        World.start, World.logLine, World.call, hm]
  · simp [respondWithCodeAndMessage_w, World.start, World.logLine, World.call]

/-- What `GetNamespaceOrders` leaves in the response writer when the request
carries the namespace `ns`. -/
theorem GetNamespaceOrders_w (orderHandler : Order) (j : Codec) (w : ResponseWriter)
    (r : Request) (ns : String) (hns : r.Vars.lookup "namespace" = some ns) :
    (orderHandler.GetNamespaceOrders j w r).w
      = match orderHandler.repository.GetNamespaceOrders ns with
        | (_, some _) =>
          (respondWithCodeAndMessage j StatusInternalServerError internalError (World.start w)).w
        | (orders, none) =>
          match j.MarshalOrders orders with
          | (_, some _) =>
            (respondWithCodeAndMessage j StatusInternalServerError internalError
              (World.start w)).w
          | (body, none) =>
            match ((w.HeaderSet "Content-Type" contentType).WriteHeader StatusOK).Write body with
            | (w1, some _) =>
              (respondWithCodeAndMessage j StatusInternalServerError internalError
                (World.start w1)).w
            | (w1, none) => w1 := by
  simp only [Order.GetNamespaceOrders, hns]
  rcases hrepo : orderHandler.repository.GetNamespaceOrders ns with ⟨orders, _ | err⟩
  · rcases hm : j.MarshalOrders orders with ⟨body, _ | merr⟩
    · simp only [respondOrders_of_marshalled j orders _ body hm]
      rcases hw : ((w.HeaderSet "Content-Type" contentType).WriteHeader StatusOK).Write body
        with ⟨w1, _ | werr⟩
      · simp [World.start, World.logLine, World.call, hw, hm]
      · simp [World.start, World.logLine, World.call, hw, hm, respondWithCodeAndMessage_w]
    · simp [respondOrders_of_marshal_error j orders _ body merr hm, respondWithCodeAndMessage_w,
        World.start, World.logLine, World.call, hm]
  · simp [respondWithCodeAndMessage_w, World.start, World.logLine, World.call]

/-- When the repository returns the orders, they are serialized and the
connection takes every byte, `GetOrders` and `GetNamespaceOrders` answer
status 200 with the JSON content type and exactly the serialized bytes as the
body, in one Write call. -/
theorem get_handlers_send_marshalled_body (orderHandler : Order) (j : Codec)
    (header : List (String × String)) (r rns : Request) (ns : String)
    (orders nsOrders : List repository.Order) (body nsBody : Bytes)
    (hns : rns.Vars.lookup "namespace" = some ns)
    (hrepo : orderHandler.repository.GetOrders = (orders, none))
    (hnsrepo : orderHandler.repository.GetNamespaceOrders ns = (nsOrders, none))
    (hm : j.MarshalOrders orders = (body, none))
    (hnsm : j.MarshalOrders nsOrders = (nsBody, none)) :
    ((orderHandler.GetOrders j (ResponseWriter.fresh header []) r).w.status = some 200
      ∧ (orderHandler.GetOrders j (ResponseWriter.fresh header []) r).w.body = body
      ∧ (orderHandler.GetOrders j (ResponseWriter.fresh header []) r).w.writes = [body]
      ∧ (orderHandler.GetOrders j (ResponseWriter.fresh header []) r).w.sentHeader.lookup
          "Content-Type" = some "application/json;charset=UTF-8")
    ∧ ((orderHandler.GetNamespaceOrders j (ResponseWriter.fresh header []) rns).w.status
        = some 200
      ∧ (orderHandler.GetNamespaceOrders j (ResponseWriter.fresh header []) rns).w.body = nsBody
      ∧ (orderHandler.GetNamespaceOrders j (ResponseWriter.fresh header []) rns).w.writes
        = [nsBody]
      ∧ (orderHandler.GetNamespaceOrders j (ResponseWriter.fresh header []) rns).w.sentHeader.lookup
          "Content-Type" = some "application/json;charset=UTF-8") := by
  rw [GetOrders_w, GetNamespaceOrders_w orderHandler j _ rns ns hns, hrepo, hnsrepo]
  simp only [hm, hnsm]
  simp [ResponseWriter.fresh, ResponseWriter.HeaderSet, ResponseWriter.WriteHeader,
    ResponseWriter.Write, StatusOK, contentType, List.lookup]

/-- When the orders cannot be serialized, nothing was sent before the error
response, and the status is 500. -/
theorem get_handlers_marshal_failure_is_500 (orderHandler : Order) (j : Codec)
    (header : List (String × String)) (conn : List WriteOutcome) (r rns : Request) (ns : String)
    (orders nsOrders : List repository.Order) (body nsBody : Bytes) (err nsErr : GoError)
    (hns : rns.Vars.lookup "namespace" = some ns)
    (hrepo : orderHandler.repository.GetOrders = (orders, none))
    (hnsrepo : orderHandler.repository.GetNamespaceOrders ns = (nsOrders, none))
    (hm : j.MarshalOrders orders = (body, some err))
    (hnsm : j.MarshalOrders nsOrders = (nsBody, some nsErr)) :
    (orderHandler.GetOrders j (ResponseWriter.fresh header conn) r).w.status = some 500
      ∧ (orderHandler.GetNamespaceOrders j (ResponseWriter.fresh header conn) rns).w.status
        = some 500 := by
  rw [GetOrders_w, GetNamespaceOrders_w orderHandler j _ rns ns hns, hrepo, hnsrepo]
  simp only [hm, hnsm]
  exact ⟨respondWithCodeAndMessage_status j _ _ _, respondWithCodeAndMessage_status j _ _ _⟩

/-- When the orders are serialized but the connection fails on the Write of
the body, the status line already went out with 200: the status of the
response is 200, and the error response the handler then sends is appended to
the body. -/
theorem get_handlers_write_failure_is_200 (orderHandler : Order) (j : Codec)
    (header : List (String × String)) (rest : List WriteOutcome) (n : Nat) (werr : GoError)
    (r rns : Request) (ns : String) (orders nsOrders : List repository.Order)
    (body nsBody : Bytes)
    (hns : rns.Vars.lookup "namespace" = some ns)
    (hrepo : orderHandler.repository.GetOrders = (orders, none))
    (hnsrepo : orderHandler.repository.GetNamespaceOrders ns = (nsOrders, none))
    (hm : j.MarshalOrders orders = (body, none))
    (hnsm : j.MarshalOrders nsOrders = (nsBody, none)) :
    ((orderHandler.GetOrders j (ResponseWriter.fresh header (WriteOutcome.fail n werr :: rest))
        r).w.status = some 200
      ∧ (orderHandler.GetOrders j (ResponseWriter.fresh header (WriteOutcome.fail n werr :: rest))
        r).w.writes = [body, j.MarshalErrorResponse ⟨500, "Internal error."⟩ ++ newline])
    ∧ ((orderHandler.GetNamespaceOrders j
        (ResponseWriter.fresh header (WriteOutcome.fail n werr :: rest)) rns).w.status = some 200
      ∧ (orderHandler.GetNamespaceOrders j
        (ResponseWriter.fresh header (WriteOutcome.fail n werr :: rest)) rns).w.writes
          = [nsBody, j.MarshalErrorResponse ⟨500, "Internal error."⟩ ++ newline]) := by
  rw [GetOrders_w, GetNamespaceOrders_w orderHandler j _ rns ns hns, hrepo, hnsrepo]
  simp only [hm, hnsm]
  simp [ResponseWriter.fresh, ResponseWriter.HeaderSet, ResponseWriter.WriteHeader,
    ResponseWriter.Write, StatusOK, respondWithCodeAndMessage_status,
    respondWithCodeAndMessage_writes, World.start, StatusInternalServerError, internalError]

/-- C8 (the part the code does not deliver): the repository returns the
orders, they are serialized, and the connection fails on the Write of the
body.  `GetOrders` and `GetNamespaceOrders` take the failure branch (the log
records "Error sending orders response." and the 500 error response is handed
to the writer), but the status of the response is 200, not 500. -/
theorem get_handlers_write_failure_status_not_500 :
    ((NewOrderHandler (sampleRepository [] none)).GetOrders
        (sampleCodec sampleOrder none)
        (ResponseWriter.fresh [] [WriteOutcome.fail 0 (GoError.other "broken pipe")])
        ⟨([], none), []⟩).w.status = some 200
      ∧ ((NewOrderHandler (sampleRepository [] none)).GetOrders
        (sampleCodec sampleOrder none)
        (ResponseWriter.fresh [] [WriteOutcome.fail 0 (GoError.other "broken pipe")])
        ⟨([], none), []⟩).w.status ≠ some 500
      ∧ ((NewOrderHandler (sampleRepository [] none)).GetOrders
        (sampleCodec sampleOrder none)
        (ResponseWriter.fresh [] [WriteOutcome.fail 0 (GoError.other "broken pipe")])
        ⟨([], none), []⟩).log
          = [LogEntry.Debug [LogArg.str "Retrieving orders"],
             LogEntry.Error [LogArg.str "Error sending orders response.",
               LogArg.err (GoError.other "broken pipe")]]
      ∧ ((NewOrderHandler (sampleRepository [] none)).GetNamespaceOrders
        (sampleCodec sampleOrder none)
        (ResponseWriter.fresh [] [WriteOutcome.fail 0 (GoError.other "broken pipe")])
        ⟨([], none), [("namespace", "shop")]⟩).w.status = some 200
      ∧ ((NewOrderHandler (sampleRepository [] none)).GetNamespaceOrders
        (sampleCodec sampleOrder none)
        (ResponseWriter.fresh [] [WriteOutcome.fail 0 (GoError.other "broken pipe")])
        ⟨([], none), [("namespace", "shop")]⟩).w.status ≠ some 500 := by
  refine ⟨by rfl, ?_, by rfl, by rfl, ?_⟩
  · have h : ((NewOrderHandler (sampleRepository [] none)).GetOrders
        (sampleCodec sampleOrder none)
        (ResponseWriter.fresh [] [WriteOutcome.fail 0 (GoError.other "broken pipe")])
        ⟨([], none), []⟩).w.status = some 200 := by rfl
    rw [h]; decide
  · have h : ((NewOrderHandler (sampleRepository [] none)).GetNamespaceOrders
        (sampleCodec sampleOrder none)
        (ResponseWriter.fresh [] [WriteOutcome.fail 0 (GoError.other "broken pipe")])
        ⟨([], none), [("namespace", "shop")]⟩).w.status = some 200 := by rfl
    rw [h]; decide

/-! ## Properties of all five handlers -/

/-- The field checks of `InsertOrder` fail, or they pass and give the parsed
order. -/
theorem unmarshal_invalid_or_valid (j : Codec) (b : Bytes) :
    ((j.Unmarshal b repository.Order.zero).2 ≠ none
      ∨ (j.Unmarshal b repository.Order.zero).1.OrderId = ""
      ∨ (j.Unmarshal b repository.Order.zero).1.PostalCode = ""
      ∨ (j.Unmarshal b repository.Order.zero).1.Town = ""
      ∨ (j.Unmarshal b repository.Order.zero).1.Total = 0)
    ∨ ∃ order, j.Unmarshal b repository.Order.zero = (order, none) ∧ order.OrderId ≠ ""
        ∧ order.PostalCode ≠ "" ∧ order.Town ≠ "" ∧ order.Total ≠ 0 := by
  by_cases h : (j.Unmarshal b repository.Order.zero).2 ≠ none
      ∨ (j.Unmarshal b repository.Order.zero).1.OrderId = ""
      ∨ (j.Unmarshal b repository.Order.zero).1.PostalCode = ""
      ∨ (j.Unmarshal b repository.Order.zero).1.Town = ""
      ∨ (j.Unmarshal b repository.Order.zero).1.Total = 0
  · exact Or.inl h
  · right
    simp only [not_or, ne_eq, not_not] at h
    exact ⟨(j.Unmarshal b repository.Order.zero).1, Prod.ext rfl h.1, h.2.1, h.2.2.1, h.2.2.2.1,
      h.2.2.2.2⟩

theorem InsertOrder_of_invalid (orderHandler : Order) (j : Codec) (w : ResponseWriter)
    (b : Bytes) (vars : List (String × String))
    (hinvalid : (j.Unmarshal b repository.Order.zero).2 ≠ none
      ∨ (j.Unmarshal b repository.Order.zero).1.OrderId = ""
      ∨ (j.Unmarshal b repository.Order.zero).1.PostalCode = ""
      ∨ (j.Unmarshal b repository.Order.zero).1.Town = ""
      ∨ (j.Unmarshal b repository.Order.zero).1.Total = 0) :
    orderHandler.InsertOrder j w ⟨(b, none), vars⟩
      = { respondWithCodeAndMessage j StatusBadRequest invalidBody (World.start w)
          with bodyClosed := true } := by
  simp only [Order.InsertOrder]
  rw [if_pos hinvalid]

/-- The writer after the three steps every response with a body starts with:
set the content type, send the status line, write the payload. -/
theorem sentAsJSON_of_send (w : ResponseWriter) (code : Nat) (p : Bytes)
    (h : (w.status = none ∧ code ≠ 201 ∧ code ≠ 204) ∨ sentAsJSON w) :
    sentAsJSON (((w.HeaderSet "Content-Type" contentType).WriteHeader code).Write p).1 := by
  unfold sentAsJSON
  rw [ResponseWriter.Write_sentHeader, ResponseWriter.Write_status,
    ResponseWriter.WriteHeader_status, ResponseWriter.WriteHeader_sentHeader]
  rcases h with ⟨hnone, h201, h204⟩ | ⟨hct, c, hc, h201, h204⟩
  · simp [ResponseWriter.HeaderSet, hnone, List.lookup, contentType, h201, h204]
  · simp [ResponseWriter.HeaderSet, hc, hct, h201, h204]

theorem sentAsJSON_of_respond (j : Codec) (code : Nat) (msg : String) (s : World)
    (h : (s.w.status = none ∧ code ≠ 201 ∧ code ≠ 204) ∨ sentAsJSON s.w) :
    sentAsJSON (respondWithCodeAndMessage j code msg s).w := by
  rw [respondWithCodeAndMessage_w]
  exact sentAsJSON_of_send s.w code _ h

/-- Every handler, started on a fresh response writer, either hands nothing to
the connection or has sent its status line with the JSON content type. -/
theorem serve_nothingWritten_or_sentAsJSON (orderHandler : Order) (route : Route) (j : Codec)
    (header : List (String × String)) (conn : List WriteOutcome) (r : Request) :
    nothingWritten (orderHandler.serve route j (ResponseWriter.fresh header conn) r).w
      ∨ sentAsJSON (orderHandler.serve route j (ResponseWriter.fresh header conn) r).w := by
  have fresh500 : ∀ msg, sentAsJSON (respondWithCodeAndMessage j StatusInternalServerError msg
      (World.start (ResponseWriter.fresh header conn))).w := fun msg =>
    sentAsJSON_of_respond j _ msg _ (Or.inl ⟨rfl, by decide, by decide⟩)
  have fresh400 : ∀ msg, sentAsJSON (respondWithCodeAndMessage j StatusBadRequest msg
      (World.start (ResponseWriter.fresh header conn))).w := fun msg =>
    sentAsJSON_of_respond j _ msg _ (Or.inl ⟨rfl, by decide, by decide⟩)
  have get : ∀ (res : List repository.Order × Option GoError),
      sentAsJSON (match res with
        | (_, some _) =>
          (respondWithCodeAndMessage j StatusInternalServerError internalError
            (World.start (ResponseWriter.fresh header conn))).w
        | (orders, none) =>
          match j.MarshalOrders orders with
          | (_, some _) =>
            (respondWithCodeAndMessage j StatusInternalServerError internalError
              (World.start (ResponseWriter.fresh header conn))).w
          | (body, none) =>
            match (((ResponseWriter.fresh header conn).HeaderSet "Content-Type"
              contentType).WriteHeader StatusOK).Write body with
            | (w1, some _) =>
              (respondWithCodeAndMessage j StatusInternalServerError internalError
                (World.start w1)).w
            | (w1, none) => w1) := by
    rintro ⟨orders, _ | err⟩
    · dsimp only
      rcases hm : j.MarshalOrders orders with ⟨body, _ | merr⟩
      · dsimp only
        have hsent := sentAsJSON_of_send (ResponseWriter.fresh header conn) StatusOK body
          (Or.inl ⟨rfl, by decide, by decide⟩)
        rcases hw : (((ResponseWriter.fresh header conn).HeaderSet "Content-Type"
          contentType).WriteHeader StatusOK).Write body with ⟨w1, _ | werr⟩
        · rw [hw] at hsent
          exact hsent
        · rw [hw] at hsent
          exact sentAsJSON_of_respond j _ _ (World.start w1) (Or.inr hsent)
      · exact fresh500 _
    · exact fresh500 _
  cases route
  · -- InsertOrder
    rcases r with ⟨⟨b, _ | rerr⟩, vars⟩
    · rcases unmarshal_invalid_or_valid j b with hinvalid | ⟨order, hparse, hid, hpc, htown, htot⟩
      · right
        simp only [Order.serve, InsertOrder_of_invalid orderHandler j _ b vars hinvalid]
        exact fresh400 _
      · simp only [Order.serve,
          InsertOrder_of_valid orderHandler j _ b vars order hparse hid hpc htown htot]
        rcases hrepo : orderHandler.repository.InsertOrder (specDelegatedOrder order)
          with _ | _ | detail
        · left
          exact ⟨rfl, rfl⟩
        · right
          exact sentAsJSON_of_respond j _ _ _ (Or.inl ⟨rfl, by decide, by decide⟩)
        · right
          exact sentAsJSON_of_respond j _ _ _ (Or.inl ⟨rfl, by decide, by decide⟩)
    · right
      simp only [Order.serve, Order.InsertOrder]
      exact sentAsJSON_of_respond j _ _ _ (Or.inl ⟨rfl, by decide, by decide⟩)
  · -- GetOrders
    right
    simp only [Order.serve, GetOrders_w]
    exact get _
  · -- GetNamespaceOrders
    right
    rcases hns : r.Vars.lookup "namespace" with _ | ns
    · simp only [Order.serve, Order.GetNamespaceOrders, hns]
      exact fresh400 _
    · simp only [Order.serve, GetNamespaceOrders_w orderHandler j _ r ns hns]
      exact get _
  · -- DeleteOrders
    simp only [Order.serve, Order.DeleteOrders]
    rcases orderHandler.repository.DeleteOrders with _ | err
    · left
      exact ⟨rfl, rfl⟩
    · right
      exact sentAsJSON_of_respond j _ _ _ (Or.inl ⟨rfl, by decide, by decide⟩)
  · -- DeleteNamespaceOrders
    rcases hns : r.Vars.lookup "namespace" with _ | ns
    · right
      simp only [Order.serve, Order.DeleteNamespaceOrders, hns]
      exact fresh400 _
    · simp only [Order.serve, Order.DeleteNamespaceOrders, hns]
      rcases orderHandler.repository.DeleteNamespaceOrders ns with _ | err
      · left
        exact ⟨rfl, rfl⟩
      · right
        exact sentAsJSON_of_respond j _ _ _ (Or.inl ⟨rfl, by decide, by decide⟩)

theorem InsertOrder_of_valid_failing (orderHandler : Order) (j : Codec) (w : ResponseWriter)
    (b : Bytes) (vars : List (String × String)) (order : repository.Order)
    (hparse : j.Unmarshal b repository.Order.zero = (order, none))
    (hid : order.OrderId ≠ "") (hpc : order.PostalCode ≠ "") (htown : order.Town ≠ "")
    (htotal : order.Total ≠ 0)
    (hfails : orderHandler.repository.InsertOrder (specDelegatedOrder order) ≠ none
      ∧ orderHandler.repository.InsertOrder (specDelegatedOrder order)
        ≠ some GoError.ErrDuplicateKey) :
    (orderHandler.InsertOrder j w ⟨(b, none), vars⟩).w
        = (respondWithCodeAndMessage j StatusInternalServerError internalError (World.start w)).w
      ∧ (orderHandler.InsertOrder j w ⟨(b, none), vars⟩).calls
        = [RepoCall.InsertOrder (specDelegatedOrder order)] := by
  rw [InsertOrder_of_valid orderHandler j w b vars order hparse hid hpc htown htotal]
  rcases hrepo : orderHandler.repository.InsertOrder (specDelegatedOrder order)
    with _ | _ | detail
  · exact absurd hrepo hfails.1
  · exact absurd hrepo hfails.2
  · exact ⟨by simp only [respondWithCodeAndMessage_w, World.start],
      by simp only [respondWithCodeAndMessage_calls]⟩

theorem body_prefix_of_Write (w : ResponseWriter) (p : Bytes) (h : w.body = []) :
    (w.Write p).1.body <+: p := by
  have hb := ResponseWriter.WriteHeader_body w StatusOK
  simp only [ResponseWriter.Write]
  split <;> simp [hb, h, List.take_prefix]

/-- The 500 response sent on a fresh response writer is the generic internal
error, whatever the connection does. -/
theorem genericInternalError_of_respond (j : Codec) (header : List (String × String))
    (conn : List WriteOutcome) :
    genericInternalError j (respondWithCodeAndMessage j StatusInternalServerError internalError
      (World.start (ResponseWriter.fresh header conn))).w := by
  refine ⟨respondWithCodeAndMessage_status j _ _ _, respondWithCodeAndMessage_writes j _ _ _, ?_⟩
  rw [respondWithCodeAndMessage_w]
  apply body_prefix_of_Write
  rw [ResponseWriter.WriteHeader_body]
  rfl

theorem GetOrders_w_of_error (orderHandler : Order) (j : Codec) (w : ResponseWriter)
    (r : Request) (err : GoError) (h : orderHandler.repository.GetOrders.2 = some err) :
    (orderHandler.GetOrders j w r).w
      = (respondWithCodeAndMessage j StatusInternalServerError internalError (World.start w)).w := by
  rcases hrepo : orderHandler.repository.GetOrders with ⟨orders, res⟩
  rw [hrepo] at h
  simp only at h
  subst h
  rw [GetOrders_w, hrepo]

theorem GetNamespaceOrders_w_of_error (orderHandler : Order) (j : Codec) (w : ResponseWriter)
    (r : Request) (ns : String) (err : GoError) (hns : r.Vars.lookup "namespace" = some ns)
    (h : (orderHandler.repository.GetNamespaceOrders ns).2 = some err) :
    (orderHandler.GetNamespaceOrders j w r).w
      = (respondWithCodeAndMessage j StatusInternalServerError internalError (World.start w)).w := by
  rcases hrepo : orderHandler.repository.GetNamespaceOrders ns with ⟨orders, res⟩
  rw [hrepo] at h
  simp only at h
  subst h
  rw [GetNamespaceOrders_w orderHandler j w r ns hns, hrepo]

theorem DeleteOrders_w_of_error (orderHandler : Order) (j : Codec) (w : ResponseWriter)
    (r : Request) (err : GoError) (h : orderHandler.repository.DeleteOrders = some err) :
    (orderHandler.DeleteOrders j w r).w
      = (respondWithCodeAndMessage j StatusInternalServerError internalError (World.start w)).w := by
  simp only [Order.DeleteOrders, h]
  rw [respondWithCodeAndMessage_w, respondWithCodeAndMessage_w]
  rfl

theorem DeleteNamespaceOrders_w_of_error (orderHandler : Order) (j : Codec)
    (w : ResponseWriter) (r : Request) (ns : String) (err : GoError)
    (hns : r.Vars.lookup "namespace" = some ns)
    (h : orderHandler.repository.DeleteNamespaceOrders ns = some err) :
    (orderHandler.DeleteNamespaceOrders j w r).w
      = (respondWithCodeAndMessage j StatusInternalServerError internalError (World.start w)).w := by
  simp only [Order.DeleteNamespaceOrders, hns, h]
  rw [respondWithCodeAndMessage_w, respondWithCodeAndMessage_w]
  rfl

/-- C9: the response of each handler does not depend on the content of a
repository error.  Take two handlers, `first` and `second`, over any two
repositories, the same codec, response writer and request, and let the
repository operation the request leads to return the error `e1` in the one
and `e2` in the other, for the very argument the handler passes (for
InsertOrder, neither being ErrDuplicateKey).  Then for each of the five
handlers the two response writers end in the same state, and that response is
the generic internal error: status 500, one Write of the error body of status
500 and message "Internal error.", and nothing else in the body.  The
conditions on the request are those under which the repository is invoked at
all: a body that is read and passes the field checks for InsertOrder, a
namespace path variable for the two namespace handlers, none for GetOrders and
DeleteOrders.  The last two parts cover the other requests: there the whole
outcome is the same for any two repositories. -/
theorem repository_error_is_generic_500 (first second : Order) (j : Codec)
    (header : List (String × String)) (conn : List WriteOutcome) (e1 e2 : GoError) :
    (∀ (b : Bytes) (vars : List (String × String)) (order : repository.Order),
        j.Unmarshal b repository.Order.zero = (order, none) →
        order.OrderId ≠ "" → order.PostalCode ≠ "" → order.Town ≠ "" → order.Total ≠ 0 →
        first.repository.InsertOrder (specDelegatedOrder order) = some e1 →
        e1 ≠ GoError.ErrDuplicateKey →
        second.repository.InsertOrder (specDelegatedOrder order) = some e2 →
        e2 ≠ GoError.ErrDuplicateKey →
        (first.InsertOrder j (ResponseWriter.fresh header conn) ⟨(b, none), vars⟩).w
            = (second.InsertOrder j (ResponseWriter.fresh header conn) ⟨(b, none), vars⟩).w
          ∧ genericInternalError j
              (first.InsertOrder j (ResponseWriter.fresh header conn) ⟨(b, none), vars⟩).w)
    ∧ (∀ r : Request,
        first.repository.GetOrders.2 = some e1 →
        second.repository.GetOrders.2 = some e2 →
        (first.GetOrders j (ResponseWriter.fresh header conn) r).w
            = (second.GetOrders j (ResponseWriter.fresh header conn) r).w
          ∧ genericInternalError j (first.GetOrders j (ResponseWriter.fresh header conn) r).w)
    ∧ (∀ (r : Request) (ns : String),
        r.Vars.lookup "namespace" = some ns →
        (first.repository.GetNamespaceOrders ns).2 = some e1 →
        (second.repository.GetNamespaceOrders ns).2 = some e2 →
        (first.GetNamespaceOrders j (ResponseWriter.fresh header conn) r).w
            = (second.GetNamespaceOrders j (ResponseWriter.fresh header conn) r).w
          ∧ genericInternalError j
              (first.GetNamespaceOrders j (ResponseWriter.fresh header conn) r).w)
    ∧ (∀ r : Request,
        first.repository.DeleteOrders = some e1 →
        second.repository.DeleteOrders = some e2 →
        (first.DeleteOrders j (ResponseWriter.fresh header conn) r).w
            = (second.DeleteOrders j (ResponseWriter.fresh header conn) r).w
          ∧ genericInternalError j (first.DeleteOrders j (ResponseWriter.fresh header conn) r).w)
    ∧ (∀ (r : Request) (ns : String),
        r.Vars.lookup "namespace" = some ns →
        first.repository.DeleteNamespaceOrders ns = some e1 →
        second.repository.DeleteNamespaceOrders ns = some e2 →
        (first.DeleteNamespaceOrders j (ResponseWriter.fresh header conn) r).w
            = (second.DeleteNamespaceOrders j (ResponseWriter.fresh header conn) r).w
          ∧ genericInternalError j
              (first.DeleteNamespaceOrders j (ResponseWriter.fresh header conn) r).w)
    ∧ (∀ (b : Bytes) (rerr : Option GoError) (vars : List (String × String)),
        (rerr ≠ none
          ∨ (j.Unmarshal b repository.Order.zero).2 ≠ none
          ∨ (j.Unmarshal b repository.Order.zero).1.OrderId = ""
          ∨ (j.Unmarshal b repository.Order.zero).1.PostalCode = ""
          ∨ (j.Unmarshal b repository.Order.zero).1.Town = ""
          ∨ (j.Unmarshal b repository.Order.zero).1.Total = 0) →
        first.InsertOrder j (ResponseWriter.fresh header conn) ⟨(b, rerr), vars⟩
          = second.InsertOrder j (ResponseWriter.fresh header conn) ⟨(b, rerr), vars⟩)
    ∧ (∀ r : Request,
        r.Vars.lookup "namespace" = none →
        first.GetNamespaceOrders j (ResponseWriter.fresh header conn) r
            = second.GetNamespaceOrders j (ResponseWriter.fresh header conn) r
          ∧ first.DeleteNamespaceOrders j (ResponseWriter.fresh header conn) r
            = second.DeleteNamespaceOrders j (ResponseWriter.fresh header conn) r) := by
  refine ⟨?_, ?_, ?_, ?_, ?_, ?_, ?_⟩
  · intro b vars order hparse hid hpc htown htot h1 hd1 h2 hd2
    have k1 := InsertOrder_of_valid_failing first j (ResponseWriter.fresh header conn) b vars
      order hparse hid hpc htown htot
      ⟨by rw [h1]; exact Option.some_ne_none e1, by rw [h1]; exact fun h => hd1 (Option.some.inj h)⟩
    have k2 := InsertOrder_of_valid_failing second j (ResponseWriter.fresh header conn) b vars
      order hparse hid hpc htown htot
      ⟨by rw [h2]; exact Option.some_ne_none e2, by rw [h2]; exact fun h => hd2 (Option.some.inj h)⟩
    rw [k1.1, k2.1]
    exact ⟨rfl, genericInternalError_of_respond j header conn⟩
  · intro r h1 h2
    rw [GetOrders_w_of_error first j _ r e1 h1, GetOrders_w_of_error second j _ r e2 h2]
    exact ⟨rfl, genericInternalError_of_respond j header conn⟩
  · intro r ns hns h1 h2
    rw [GetNamespaceOrders_w_of_error first j _ r ns e1 hns h1,
      GetNamespaceOrders_w_of_error second j _ r ns e2 hns h2]
    exact ⟨rfl, genericInternalError_of_respond j header conn⟩
  · intro r h1 h2
    rw [DeleteOrders_w_of_error first j _ r e1 h1, DeleteOrders_w_of_error second j _ r e2 h2]
    exact ⟨rfl, genericInternalError_of_respond j header conn⟩
  · intro r ns hns h1 h2
    rw [DeleteNamespaceOrders_w_of_error first j _ r ns e1 hns h1,
      DeleteNamespaceOrders_w_of_error second j _ r ns e2 hns h2]
    exact ⟨rfl, genericInternalError_of_respond j header conn⟩
  · intro b rerr vars h
    rcases rerr with _ | rerr
    · have hinvalid := h.resolve_left (fun hne => hne rfl)
      rw [InsertOrder_of_invalid first j _ b vars hinvalid,
        InsertOrder_of_invalid second j _ b vars hinvalid]
    · simp only [Order.InsertOrder]
  · intro r hns
    constructor
    · simp only [Order.GetNamespaceOrders, hns]
    · simp only [Order.DeleteNamespaceOrders, hns]

theorem repository_error_is_generic_500_witness :
    (((NewOrderHandler (sampleRepository [] (some (GoError.other "db down")))).InsertOrder
          (sampleCodec sampleOrder none) (ResponseWriter.fresh [] []) ⟨([], none), []⟩).w
        = ((NewOrderHandler (sampleRepository [] (some (GoError.other "timeout")))).InsertOrder
          (sampleCodec sampleOrder none) (ResponseWriter.fresh [] []) ⟨([], none), []⟩).w
      ∧ genericInternalError (sampleCodec sampleOrder none)
          ((NewOrderHandler (sampleRepository [] (some (GoError.other "db down")))).InsertOrder
            (sampleCodec sampleOrder none) (ResponseWriter.fresh [] []) ⟨([], none), []⟩).w)
    ∧ (((NewOrderHandler (sampleRepository [] (some (GoError.other "db down")))).DeleteOrders
          (sampleCodec sampleOrder none) (ResponseWriter.fresh [] []) ⟨([], none), []⟩).w
        = ((NewOrderHandler (sampleRepository [] (some (GoError.other "timeout")))).DeleteOrders
          (sampleCodec sampleOrder none) (ResponseWriter.fresh [] []) ⟨([], none), []⟩).w
      ∧ genericInternalError (sampleCodec sampleOrder none)
          ((NewOrderHandler (sampleRepository [] (some (GoError.other "db down")))).DeleteOrders
            (sampleCodec sampleOrder none) (ResponseWriter.fresh [] []) ⟨([], none), []⟩).w)
    ∧ ((NewOrderHandler (sampleRepository [] (some (GoError.other "db down")))).InsertOrder
          (sampleCodec sampleOrder none) (ResponseWriter.fresh [] []) ⟨([], none), []⟩).log
        ≠ ((NewOrderHandler (sampleRepository [] (some (GoError.other "timeout")))).InsertOrder
          (sampleCodec sampleOrder none) (ResponseWriter.fresh [] []) ⟨([], none), []⟩).log :=
  ⟨(repository_error_is_generic_500
      (NewOrderHandler (sampleRepository [] (some (GoError.other "db down"))))
      (NewOrderHandler (sampleRepository [] (some (GoError.other "timeout"))))
      (sampleCodec sampleOrder none) [] [] (GoError.other "db down")
      (GoError.other "timeout")).1 [] [] sampleOrder rfl (by decide) (by decide) (by decide)
      (by simp [sampleOrder]) rfl (by decide) rfl (by decide),
    (repository_error_is_generic_500
      (NewOrderHandler (sampleRepository [] (some (GoError.other "db down"))))
      (NewOrderHandler (sampleRepository [] (some (GoError.other "timeout"))))
      (sampleCodec sampleOrder none) [] [] (GoError.other "db down")
      (GoError.other "timeout")).2.2.2.1 ⟨([], none), []⟩ rfl rfl,
    by simp [Order.InsertOrder, sampleCodec, sampleOrder, NewOrderHandler,
        sampleRepository, World.start, World.logLine, World.call, respondWithCodeAndMessage,
        Encode, ResponseWriter.Write, ResponseWriter.WriteHeader, ResponseWriter.HeaderSet,
        ResponseWriter.fresh]⟩

/-- C10: for every request to any of the five handlers, if a byte of body
reached the connection, or any Write call was made at all, then the headers
that went out with the status line, before that body, carry Content-Type
"application/json;charset=UTF-8"; and a response of status 201 or 204 makes no
Write call and has an empty body. -/
theorem body_comes_with_json_content_type (orderHandler : Order) (route : Route) (j : Codec)
    (header : List (String × String)) (conn : List WriteOutcome) (r : Request) :
    ((orderHandler.serve route j (ResponseWriter.fresh header conn) r).w.body ≠ [] →
        (orderHandler.serve route j (ResponseWriter.fresh header conn) r).w.sentHeader.lookup
          "Content-Type" = some "application/json;charset=UTF-8")
      ∧ ((orderHandler.serve route j (ResponseWriter.fresh header conn) r).w.writes ≠ [] →
        (orderHandler.serve route j (ResponseWriter.fresh header conn) r).w.sentHeader.lookup
          "Content-Type" = some "application/json;charset=UTF-8")
      ∧ ((orderHandler.serve route j (ResponseWriter.fresh header conn) r).w.status = some 201
          ∨ (orderHandler.serve route j (ResponseWriter.fresh header conn) r).w.status
            = some 204 →
        (orderHandler.serve route j (ResponseWriter.fresh header conn) r).w.writes = []
          ∧ (orderHandler.serve route j (ResponseWriter.fresh header conn) r).w.body = []) := by
  rcases serve_nothingWritten_or_sentAsJSON orderHandler route j header conn r
    with ⟨hwrites, hbody⟩ | ⟨hct, code, hcode, h201, h204⟩
  · exact ⟨fun h => absurd hbody h, fun h => absurd hwrites h, fun _ => ⟨hwrites, hbody⟩⟩
  · refine ⟨fun _ => hct, fun _ => hct, fun h => ?_⟩
    rw [hcode] at h
    rcases h with h | h
    · exact absurd (Option.some.inj h) h201
    · exact absurd (Option.some.inj h) h204

theorem body_comes_with_json_content_type_witness :
    ((NewOrderHandler (sampleRepository [] none)).serve Route.GetOrders
        (sampleCodec sampleOrder none) (ResponseWriter.fresh [("Content-Type", "text/plain")] [])
        ⟨([], none), []⟩).w.body = [91, 93]
      ∧ ((NewOrderHandler (sampleRepository [] none)).serve Route.GetOrders
        (sampleCodec sampleOrder none) (ResponseWriter.fresh [("Content-Type", "text/plain")] [])
        ⟨([], none), []⟩).w.sentHeader.lookup "Content-Type"
          = some "application/json;charset=UTF-8" :=
  ⟨by rfl,
    (body_comes_with_json_content_type (NewOrderHandler (sampleRepository [] none))
      Route.GetOrders (sampleCodec sampleOrder none) [("Content-Type", "text/plain")] []
      ⟨([], none), []⟩).1 (by
        have h : ((NewOrderHandler (sampleRepository [] none)).serve Route.GetOrders
            (sampleCodec sampleOrder none)
            (ResponseWriter.fresh [("Content-Type", "text/plain")] [])
            ⟨([], none), []⟩).w.body = [91, 93] := by rfl
        rw [h]
        decide)⟩

end handler
